import Mathlib

/-!
Shallow embedding of the scraper core in `src/app.py` (classes
`DatabaseManager` and `AmazonScraper`), together with proofs about the
extraction fallback chains, the affiliate-link rewriting, the refresh
eligibility query, the fetch retry loop and the store-replacement logic.

HTML parsing and CSS selection are external libraries from the program's
point of view; a product element is therefore modelled by the results the
library would return for each selector in the program's ordered selector
lists (the trimmed text of the matched element, or `none` when the
selector matches nothing), plus the first anchor's href and a flag saying
whether processing this element raises an exception.
-/

namespace Scraper

/-- Character class `[A-Z0-9]` of the ASIN regex in
`convert_to_affiliate_link` (`re.search(r'/dp/([A-Z0-9]{10})', url)`). -/
def asinChar (c : Char) : Bool :=
  ('A' ≤ c && c ≤ 'Z') || ('0' ≤ c && c ≤ '9')

/-- Whether `pat` occurs at the head of `cs` (list form of string matching,
used to model the regex scan). -/
def listStarts : List Char → List Char → Bool
  | _, [] => true
  | [], _ :: _ => false
  | c :: cs, p :: ps => c == p && listStarts cs ps

/-- Attempt to match `/dp/([A-Z0-9]{10})` at the head of `cs`; on success
return the captured 10-character group. -/
def dpHere (cs : List Char) : Option String :=
  if listStarts cs "/dp/".data then
    let grp := (cs.drop 4).take 10
    if grp.length == 10 && grp.all asinChar then some (String.mk grp) else none
  else none

/-- Leftmost match of `re.search(r'/dp/([A-Z0-9]{10})', ...)`: scan
positions left to right and return the first captured group. -/
def findAsin : List Char → Option String
  | [] => none
  | c :: rest =>
    match dpHere (c :: rest) with
    | some a => some a
    | none => findAsin rest

/-- Embeds `AmazonScraper.convert_to_affiliate_link` (src/app.py lines
167-174): rewrite to the canonical affiliate form when the ASIN regex
matches, otherwise return the input unchanged. -/
def convert_to_affiliate_link (product_url : String) (affiliate_tag : String := "your-tag-20") :
    String :=
  match findAsin product_url.data with
  | some asin => "https://www.amazon.com/dp/" ++ asin ++ "?tag=" ++ affiliate_tag
  | none => product_url

/-- The base URL field of `AmazonScraper`. -/
def base_url : String := "https://www.amazon.com"

/-- Models `urllib.parse.urljoin` for the fixed host-only base
`https://www.amazon.com`: an absolute http(s) reference replaces the base,
any other reference resolves against the (empty) base path. The claims
under study do not depend on finer `urljoin` behaviour. -/
def urljoin (base rel : String) : String :=
  if listStarts rel.data "http://".data || listStarts rel.data "https://".data then rel
  else if listStarts rel.data "/".data then base ++ rel
  else base ++ "/" ++ rel

/-- Sentinel used by the title fallback chain in `extract_product_info`. -/
def noTitle : String := "No title available"

/-- Sentinel used by the summary fallback chain in `extract_product_info`. -/
def noDescription : String := "No description available"

/-- Title fallback loop of `extract_product_info` (src/app.py lines
193-199), parameterised by the per-selector results `sels` (trimmed text
of `select_one`, or `none` when the selector matches nothing). Mirrors the
source exactly: every matched candidate overwrites the running `title`
variable, and the loop stops at the first candidate that is non-empty and
longer than 3 characters. -/
def titleLoop (title : String) : List (Option String) → String
  | [] => title
  | none :: rest => titleLoop title rest
  | some t :: rest => if t ≠ "" ∧ 3 < t.length then t else titleLoop t rest

/-- Resolved title of a product element: the title loop started from the
sentinel. -/
def resolveTitle (sels : List (Option String)) : String :=
  titleLoop noTitle sels

/-- Lower-casing, modelling Python `str.lower()` on the texts at hand. -/
def strLower (s : String) : String := String.mk (s.data.map Char.toLower)

/-- Substring containment (`needle in hay` in Python). -/
def strContains (hay needle : String) : Bool :=
  (List.range (hay.data.length + 1)).any fun i => listStarts (hay.data.drop i) needle.data

/-- Acceptance test of the summary loop in `extract_product_info`
(src/app.py line 213): `desc_text and len(desc_text) > 10 and 'stars' not
in desc_text.lower()`. -/
def summaryOK (t : String) : Bool :=
  t ≠ "" && 10 < t.length && !(strContains (strLower t) "stars")

/-- Truncation applied to an accepted summary (src/app.py line 214):
`desc_text[:200] + "..." if len(desc_text) > 200 else desc_text`. -/
def truncateSummary (t : String) : String :=
  if 200 < t.length then t.take 200 ++ "..." else t

/-- Summary fallback loop of `extract_product_info` (src/app.py lines
202-215): the first accepted candidate is truncated and returned; unlike
the title loop, a rejected candidate does not overwrite the sentinel. -/
def resolveSummary : List (Option String) → String
  | [] => noDescription
  | none :: rest => resolveSummary rest
  | some t :: rest => if summaryOK t then truncateSummary t else resolveSummary rest

/-- A product element as seen through the external HTML library:
`anchorHref` is the href of `product_element.find('a', href=True)` (none
when no anchor exists), `titleSel`/`descSel` list, in the program's
selector order, the trimmed text that `select_one` yields for each title
and description selector, and `raises` flags an element whose processing
raises an exception inside `extract_product_info` (caught there). -/
structure Element where
  anchorHref : Option String
  titleSel : List (Option String)
  descSel : List (Option String)
  raises : Bool
deriving Repr, DecidableEq

/-- A product record as returned by `extract_product_info`. -/
structure ProductInfo where
  title : String
  url : String
  summary : String
  rank : Nat
deriving Repr, DecidableEq

/-- Embeds `AmazonScraper.extract_product_info` (src/app.py lines
176-226): `none` when the element has no anchor or processing raises
(the exception is caught and `None` returned); otherwise a record whose
url is the affiliate-converted absolute link and whose rank is the passed
argument. -/
def extract_product_info (e : Element) (rank : Nat) : Option ProductInfo :=
  if e.raises then none
  else
    match e.anchorHref with
    | none => none
    | some href =>
      let product_url := urljoin base_url href
      let affiliate_url := convert_to_affiliate_link product_url
      some { title := resolveTitle e.titleSel
             url := affiliate_url
             summary := resolveSummary e.descSel
             rank := rank }

/-- A fetched listing page as seen through the HTML library: `selMatches`
lists, in the order of `product_selectors` (src/app.py lines 240-246), the
elements each structural selector matches; `fallbackMatches` is the result
of the broad `find_all` class-regex fallback (line 258). -/
structure Page where
  selMatches : List (List Element)
  fallbackMatches : List Element
deriving Repr, DecidableEq

/-- First structural selector with at least one match (the `break` in the
selector loop, src/app.py lines 249-254). -/
def firstNonNil : List (List Element) → Option (List Element)
  | [] => none
  | l :: ls => if l.isEmpty then firstNonNil ls else some l

/-- Block location step of `scrape_category_products`: the first
successful structural selector's matches, else the fallback scan, both
truncated to `limit`. -/
def selectBlocks (p : Page) (limit : Nat) : List Element :=
  match firstNonNil p.selMatches with
  | some l => l.take limit
  | none => p.fallbackMatches.take limit

/-- Main accumulation loop of `scrape_category_products` (src/app.py
lines 260-267): enumerate blocks, extract with rank `i + 1`, keep records
whose title is not the sentinel, and break once `limit` records are
collected. -/
def scrapeLoop (limit : Nat) : List Element → Nat → List ProductInfo → List ProductInfo
  | [], _, acc => acc
  | e :: rest, i, acc =>
    let acc' :=
      match extract_product_info e (i + 1) with
      | some info => if info.title ≠ noTitle then acc ++ [info] else acc
      | none => acc
    if limit ≤ acc'.length then acc' else scrapeLoop limit rest (i + 1) acc'

/-- Embeds `AmazonScraper.scrape_category_products` (src/app.py lines
228-274). The whole body is wrapped in a `try`/`except` returning `[]`,
so a failed fetch (modelled by `Except.error`) yields the empty list. -/
def scrape_category_products (fetched : Except String Page) (limit : Nat := 10) :
    List ProductInfo :=
  match fetched with
  | .error _ => []
  | .ok page => scrapeLoop limit (selectBlocks page limit) 0 []

/-- A `categories` row (src/app.py lines 34-40). Timestamps are integer
time units; `none` models SQL NULL (never scraped). -/
structure Category where
  id : Nat
  name : String
  href : String
  last_scraped : Option Int
deriving Repr, DecidableEq

/-- A `products` row as written by `insert_products` (src/app.py lines
106-110). -/
structure StoredProduct where
  category_id : Nat
  title : String
  affiliate_link : String
  summary : String
  rank : Nat
deriving Repr, DecidableEq

/-- The relational store: the two tables the scraper core touches. -/
structure DB where
  categories : List Category
  products : List StoredProduct
deriving Repr, DecidableEq

/-- Embeds `DatabaseManager.get_category_by_id` (src/app.py lines 80-85):
`SELECT * FROM categories WHERE id = %s`, first row. -/
def get_category_by_id (db : DB) (cid : Nat) : Option Category :=
  db.categories.find? fun c => c.id == cid

/-- Rows built by the insert loop of `insert_products`:
`for rank, product in enumerate(products, 1)` — the stored rank is the
enumeration position starting at `r`, and the record's own `rank` field is
never read. -/
def mkStored (cid : Nat) : Nat → List ProductInfo → List StoredProduct
  | _, [] => []
  | r, info :: rest =>
    { category_id := cid, title := info.title, affiliate_link := info.url,
      summary := info.summary, rank := r } :: mkStored cid (r + 1) rest

/-- Embeds `DatabaseManager.insert_products` (src/app.py lines 98-112):
delete this category's rows, then insert the new records with enumeration
ranks, in one transaction (the single `commit`); modelled as one pure
state transform. -/
def insert_products (db : DB) (cid : Nat) (products : List ProductInfo) : DB :=
  { db with
    products := db.products.filter (fun p => p.category_id != cid) ++ mkStored cid 1 products }

/-- Embeds `DatabaseManager.update_category_scraped` (src/app.py lines
87-96): `SET last_scraped = NOW() WHERE id = %s`; `now` stands for the
database clock. -/
def update_category_scraped (db : DB) (cid : Nat) (now : Int) : DB :=
  { db with
    categories := db.categories.map fun c =>
      if c.id == cid then { c with last_scraped := some now } else c }

/-- Staleness filter of `get_categories_needing_update` (src/app.py lines
129-134): `last_scraped IS NULL OR last_scraped < NOW() - INTERVAL '%s
hours'`. -/
def is_due (now hours_old : Int) (c : Category) : Bool :=
  match c.last_scraped with
  | none => true
  | some t => t < now - hours_old

/-- Row order of `ORDER BY last_scraped ASC NULLS FIRST`: NULL sorts
before every timestamp. -/
def tsLE : Option Int → Option Int → Bool
  | none, _ => true
  | some _, none => false
  | some a, some b => a ≤ b

/-- The ordering relation on categories induced by `ORDER BY last_scraped
ASC NULLS FIRST`. -/
def catLE (a b : Category) : Prop := tsLE a.last_scraped b.last_scraped = true

instance : DecidableRel catLE := fun a b =>
  inferInstanceAs (Decidable (tsLE a.last_scraped b.last_scraped = true))

/-- Embeds `DatabaseManager.get_categories_needing_update` (src/app.py
lines 125-135): filter to stale-or-never-scraped rows, ordered by
`last_scraped ASC NULLS FIRST` (a stable sort of the filtered rows). -/
def get_categories_needing_update (cats : List Category) (now : Int) (hours_old : Int := 24) :
    List Category :=
  List.insertionSort catLE (cats.filter (is_due now hours_old))

/-- Outcome the transport layer gives one `session.get` attempt inside
`get_page`: a parsed page on a 2xx response, or a `requests.RequestException`
(non-2xx status via `raise_for_status`, timeout, or transport failure)
carrying a message. -/
inductive AttemptResult where
  | ok (page : Page)
  | fail (err : String)
deriving Repr, DecidableEq

/-- Result of `get_page`: a page, a re-raised final exception, or the
implicit `None` when the loop runs zero iterations. -/
inductive GetPageResult where
  | page (p : Page)
  | raised (e : String)
  | returnedNone
deriving Repr, DecidableEq

/-- Observable events of `get_page`: the polite delay
`time.sleep(random.uniform(2, 5))` before an attempt, the HTTP attempt
itself, and the retry delay `time.sleep(random.uniform(3, 7))` after a
non-final failure. -/
inductive FetchEv where
  | sleepPolite
  | attempt (i : Nat)
  | sleepRetry
deriving Repr, DecidableEq

/-- Body of the retry loop of `get_page` (src/app.py lines 155-165),
unrolled on the number of remaining loop iterations (`fuel`), with
`attempt` the current value of the loop variable; `attempts` gives the
transport outcome of each attempt. Returns the result together with the
trace of sleeps and attempts. -/
def getPageAux (attempts : Nat → AttemptResult) (retries : Nat) :
    Nat → Nat → GetPageResult × List FetchEv
  | 0, _ => (.returnedNone, [])
  | _fuel + 1, attempt =>
    match attempts attempt with
    | .ok p => (.page p, [.sleepPolite, .attempt attempt])
    | .fail e =>
      if attempt == retries - 1 then (.raised e, [.sleepPolite, .attempt attempt])
      else
        let r := getPageAux attempts retries _fuel (attempt + 1)
        (r.1, .sleepPolite :: .attempt attempt :: .sleepRetry :: r.2)

/-- Embeds `AmazonScraper.get_page` (src/app.py lines 153-165): up to
`retries` attempts, each preceded by a polite sleep; a `RequestException`
on the last attempt is re-raised, earlier failures sleep a retry delay
and loop. -/
def get_page (attempts : Nat → AttemptResult) (retries : Nat := 3) :
    GetPageResult × List FetchEv :=
  getPageAux attempts retries retries 0

/-- Embeds `AmazonScraper.scrape_and_store_category` (src/app.py lines
276-291). `fetcher` stands for the `get_page`-plus-parse step of
`scrape_category_products`; the third component counts how many times the
network fetch is initiated, so that the no-category path can be seen to
perform no fetch. -/
def scrape_and_store_category (db : DB) (cid : Nat) (fetcher : Unit → Except String Page)
    (now : Int) : Bool × DB × Nat :=
  match get_category_by_id db cid with
  | none => (false, db, 0)
  | some _ =>
    let products := scrape_category_products (fetcher ()) 10
    if products.isEmpty then (false, db, 1)
    else (true, update_category_scraped (insert_products db cid products) cid now, 1)

/-- Rows of `products` belonging to one category, in stored order. -/
def productsFor (db : DB) (cid : Nat) : List StoredProduct :=
  db.products.filter fun p => p.category_id == cid

/-- Net contribution of the block at 0-based position `i` to the result
list: the extracted record, kept only when its title is not the sentinel
(the admission test on src/app.py line 262). -/
def recordOf (i : Nat) (e : Element) : Option ProductInfo :=
  match extract_product_info e (i + 1) with
  | some info => if info.title ≠ noTitle then some info else none
  | none => none

/-- Records the loop would admit from `blocks` with no limit, the first
block carrying 0-based position `i`. -/
def goodRecords : Nat → List Element → List ProductInfo
  | _, [] => []
  | i, e :: rest =>
    match recordOf i e with
    | some p => p :: goodRecords (i + 1) rest
    | none => goodRecords (i + 1) rest

theorem scrapeLoop_cons (limit : Nat) (e : Element) (rest : List Element) (i : Nat)
    (acc : List ProductInfo) :
    scrapeLoop limit (e :: rest) i acc =
      (match recordOf i e with
       | some p =>
           if limit ≤ acc.length + 1 then acc ++ [p] else scrapeLoop limit rest (i + 1) (acc ++ [p])
       | none => if limit ≤ acc.length then acc else scrapeLoop limit rest (i + 1) acc) := by
  simp only [scrapeLoop, recordOf]
  cases hx : extract_product_info e (i + 1) with
  | none => simp
  | some info =>
    by_cases ht : info.title ≠ noTitle
    · simp [ht]
    · simp [ht]

theorem scrapeLoop_eq (limit : Nat) (blocks : List Element) (i : Nat)
    (acc : List ProductInfo) (h : acc.length < limit) :
    scrapeLoop limit blocks i acc = acc ++ (goodRecords i blocks).take (limit - acc.length) := by
  induction blocks generalizing i acc with
  | nil => simp [scrapeLoop, goodRecords]
  | cons e rest ih =>
    rw [scrapeLoop_cons]
    cases hr : recordOf i e with
    | none =>
      rw [if_neg (by omega)]
      simp only [goodRecords, hr]
      exact ih (i + 1) acc h
    | some p =>
      simp only [goodRecords, hr]
      by_cases hl : limit ≤ acc.length + 1
      · rw [if_pos hl]
        have hlim : limit - acc.length = 1 := by omega
        simp [hlim]
      · rw [if_neg hl]
        rw [ih (i + 1) (acc ++ [p]) (by simpa using by omega)]
        have hlim : limit - acc.length = (limit - (acc.length + 1)) + 1 := by omega
        simp [hlim, List.take_succ_cons]

/-- Characterisation of the extractor: the admitted records of the
selected blocks, truncated to `limit`. -/
theorem scrape_eq (page : Page) (limit : Nat) :
    scrape_category_products (.ok page) limit =
      (goodRecords 0 (selectBlocks page limit)).take limit := by
  rcases Nat.eq_zero_or_pos limit with h0 | hpos
  · subst h0
    simp only [scrape_category_products, selectBlocks]
    cases firstNonNil page.selMatches <;> simp [scrapeLoop, goodRecords]
  · simpa using scrapeLoop_eq limit (selectBlocks page limit) 0 [] (by simpa using hpos)

theorem recordOf_title (i : Nat) (e : Element) (p : ProductInfo)
    (h : recordOf i e = some p) : p.title ≠ noTitle := by
  unfold recordOf at h
  split at h
  · split at h
    · rename_i ht
      cases h
      exact ht
    · cases h
  · cases h

theorem goodRecords_mem_title (i : Nat) (blocks : List Element) (p : ProductInfo)
    (h : p ∈ goodRecords i blocks) : p.title ≠ noTitle := by
  induction blocks generalizing i with
  | nil => simp [goodRecords] at h
  | cons e rest ih =>
    simp only [goodRecords] at h
    cases hr : recordOf i e with
    | none => rw [hr] at h; exact ih (i + 1) h
    | some q =>
      rw [hr] at h
      rcases List.mem_cons.mp h with rfl | h'
      · exact recordOf_title i e p hr
      · exact ih (i + 1) h'

theorem recordOf_rank (i : Nat) (e : Element) (p : ProductInfo)
    (h : recordOf i e = some p) : p.rank = i + 1 := by
  unfold recordOf at h
  split at h
  · rename_i info hx
    split at h
    · cases h
      unfold extract_product_info at hx
      split at hx
      · cases hx
      · split at hx
        · cases hx
        · cases hx
          rfl
    · cases h
  · cases h

theorem goodRecords_mem_rank (i : Nat) (blocks : List Element) (p : ProductInfo)
    (h : p ∈ goodRecords i blocks) : i < p.rank := by
  induction blocks generalizing i with
  | nil => simp [goodRecords] at h
  | cons e rest ih =>
    simp only [goodRecords] at h
    cases hr : recordOf i e with
    | none =>
      rw [hr] at h
      have := ih (i + 1) h
      omega
    | some q =>
      rw [hr] at h
      rcases List.mem_cons.mp h with rfl | h'
      · have := recordOf_rank i e p hr
        omega
      · have := ih (i + 1) h'
        omega

theorem goodRecords_pairwise (i : Nat) (blocks : List Element) :
    (goodRecords i blocks).Pairwise fun a b => a.rank < b.rank := by
  induction blocks generalizing i with
  | nil => simp [goodRecords]
  | cons e rest ih =>
    simp only [goodRecords]
    cases hr : recordOf i e with
    | none => exact ih (i + 1)
    | some p =>
      refine List.Pairwise.cons ?_ (ih (i + 1))
      intro q hq
      have h1 := recordOf_rank i e p hr
      have h2 := goodRecords_mem_rank (i + 1) rest q hq
      omega

theorem goodRecords_mem_src (i : Nat) (blocks : List Element) (p : ProductInfo)
    (h : p ∈ goodRecords i blocks) :
    ∃ j, ∃ hj : j < blocks.length, recordOf (i + j) (blocks.get ⟨j, hj⟩) = some p := by
  induction blocks generalizing i with
  | nil => simp [goodRecords] at h
  | cons e rest ih =>
    simp only [goodRecords] at h
    cases hr : recordOf i e with
    | none =>
      rw [hr] at h
      obtain ⟨j, hj, hrec⟩ := ih (i + 1) h
      exact ⟨j + 1, by simpa using Nat.succ_lt_succ hj, by simpa [Nat.add_assoc, Nat.add_comm 1 j] using hrec⟩
    | some q =>
      rw [hr] at h
      rcases List.mem_cons.mp h with rfl | h'
      · exact ⟨0, by simp, by simpa using hr⟩
      · obtain ⟨j, hj, hrec⟩ := ih (i + 1) h'
        exact ⟨j + 1, by simpa using Nat.succ_lt_succ hj, by simpa [Nat.add_assoc, Nat.add_comm 1 j] using hrec⟩

theorem firstNonNil_all_nil (ls : List (List Element)) (h : ∀ l ∈ ls, l = []) :
    firstNonNil ls = none := by
  induction ls with
  | nil => rfl
  | cons l rest ih =>
    have hl : l = [] := h l (by simp)
    simp only [firstNonNil, hl, List.isEmpty_nil, if_true]
    exact ih fun x hx => h x (by simp [hx])

/-- Acceptance test of the title loop, as a Boolean predicate on one
candidate: trimmed text non-empty and longer than 3 characters
(src/app.py line 198). -/
def goodTitle (t : String) : Bool := decide (t ≠ "" ∧ 3 < t.length)

theorem titleLoop_eq (acc : String) (sels : List (Option String)) :
    titleLoop acc sels =
      match (sels.filterMap id).find? goodTitle with
      | some t => t
      | none => ((sels.filterMap id).getLast?).getD acc := by
  induction sels generalizing acc with
  | nil => simp [titleLoop]
  | cons o rest ih =>
    cases o with
    | none =>
      have hfm : (none :: rest).filterMap (id (α := Option String)) = rest.filterMap id := by simp
      rw [hfm]
      simpa only [titleLoop] using ih acc
    | some t =>
      have hfm : (some t :: rest).filterMap (id (α := Option String)) = t :: rest.filterMap id := by
        simp
      rw [hfm]
      by_cases hg : t ≠ "" ∧ 3 < t.length
      · rw [List.find?_cons_of_pos _ (by simpa [goodTitle] using hg)]
        simp [titleLoop, hg]
      · rw [List.find?_cons_of_neg _ (by simpa [goodTitle] using hg)]
        simp only [titleLoop, if_neg hg]
        rw [ih t]
        cases hf : (rest.filterMap id).find? goodTitle with
        | some t' => rfl
        | none =>
          cases hfm : rest.filterMap id with
          | nil => simp
          | cons x xs =>
            rw [List.getLast?_cons_cons]
            cases hgl : (x :: xs).getLast? with
            | none => simp at hgl
            | some y => rfl

theorem resolveSummary_eq (sels : List (Option String)) :
    resolveSummary sels =
      (((sels.filterMap id).find? summaryOK).map truncateSummary).getD noDescription := by
  induction sels with
  | nil => simp [resolveSummary]
  | cons o rest ih =>
    cases o with
    | none =>
      have hfm : (none :: rest).filterMap (id (α := Option String)) = rest.filterMap id := by simp
      rw [hfm]
      simpa only [resolveSummary] using ih
    | some t =>
      have hfm : (some t :: rest).filterMap (id (α := Option String)) = t :: rest.filterMap id := by
        simp
      rw [hfm]
      by_cases hg : summaryOK t = true
      · rw [List.find?_cons_of_pos _ hg]
        simp [resolveSummary, hg]
      · rw [List.find?_cons_of_neg _ hg]
        simp only [resolveSummary, if_neg hg]
        exact ih

theorem findAsin_none_of (cs : List Char) (h : ∀ i, dpHere (cs.drop i) = none) :
    findAsin cs = none := by
  induction cs with
  | nil => rfl
  | cons c rest ih =>
    have h0 := h 0
    simp only [List.drop_zero] at h0
    simp only [findAsin, h0]
    exact ih fun i => by simpa using h (i + 1)

theorem findAsin_some_of (cs : List Char) (i : Nat) (a : String)
    (hmatch : dpHere (cs.drop i) = some a) (hleft : ∀ j, j < i → dpHere (cs.drop j) = none) :
    findAsin cs = some a := by
  induction cs generalizing i with
  | nil =>
    simp only [List.drop_nil] at hmatch
    simp [dpHere, listStarts] at hmatch
  | cons c rest ih =>
    cases i with
    | zero =>
      simp only [List.drop_zero] at hmatch
      simp [findAsin, hmatch]
    | succ i' =>
      have h0 : dpHere (c :: rest) = none := by simpa using hleft 0 (Nat.succ_pos i')
      simp only [findAsin, h0]
      exact ih i' (by simpa using hmatch) fun j hj => by simpa using hleft (j + 1) (by omega)

theorem mkStored_map_title (cid r : Nat) (ps : List ProductInfo) :
    (mkStored cid r ps).map StoredProduct.title = ps.map ProductInfo.title := by
  induction ps generalizing r with
  | nil => rfl
  | cons p rest ih => simp [mkStored, ih]

theorem mkStored_map_link (cid r : Nat) (ps : List ProductInfo) :
    (mkStored cid r ps).map StoredProduct.affiliate_link = ps.map ProductInfo.url := by
  induction ps generalizing r with
  | nil => rfl
  | cons p rest ih => simp [mkStored, ih]

theorem mkStored_map_summary (cid r : Nat) (ps : List ProductInfo) :
    (mkStored cid r ps).map StoredProduct.summary = ps.map ProductInfo.summary := by
  induction ps generalizing r with
  | nil => rfl
  | cons p rest ih => simp [mkStored, ih]

theorem mkStored_map_rank (cid r : Nat) (ps : List ProductInfo) :
    (mkStored cid r ps).map StoredProduct.rank = List.range' r ps.length := by
  induction ps generalizing r with
  | nil => rfl
  | cons p rest ih => simp [mkStored, ih, List.range'_succ]

theorem mkStored_cid (cid r : Nat) (ps : List ProductInfo) :
    ∀ q ∈ mkStored cid r ps, q.category_id = cid := by
  induction ps generalizing r with
  | nil => simp [mkStored]
  | cons p rest ih =>
    intro q hq
    rcases List.mem_cons.mp hq with rfl | hq'
    · rfl
    · exact ih (r + 1) q hq'

theorem filter_cid_of_ne (l : List StoredProduct) (cid c2 : Nat) (h : c2 ≠ cid) :
    (l.filter fun p => p.category_id != cid).filter (fun p => p.category_id == c2) =
      l.filter fun p => p.category_id == c2 := by
  induction l with
  | nil => rfl
  | cons p rest ih =>
    simp only [List.filter_cons]
    by_cases hp : p.category_id = cid
    · rw [if_neg (by simp [hp]), ih, if_neg (by simp [hp]; exact fun hc => h hc.symm)]
    · rw [if_pos (by simp [hp])]
      simp only [List.filter_cons]
      rw [ih]

theorem filter_cid_self_nil (l : List StoredProduct) (cid : Nat) :
    (l.filter fun p => p.category_id != cid).filter (fun p => p.category_id == cid) = [] := by
  induction l with
  | nil => rfl
  | cons p rest ih =>
    simp only [List.filter_cons]
    by_cases hp : p.category_id = cid
    · rw [if_neg (by simp [hp]), ih]
    · rw [if_pos (by simp [hp])]
      simp only [List.filter_cons]
      rw [if_neg (by simp [hp]), ih]

theorem filter_mkStored_self (cid r : Nat) (ps : List ProductInfo) :
    (mkStored cid r ps).filter (fun p => p.category_id == cid) = mkStored cid r ps :=
  List.filter_eq_self.mpr fun q hq => by simp [mkStored_cid cid r ps q hq]

theorem filter_mkStored_other (cid c2 r : Nat) (ps : List ProductInfo) (h : c2 ≠ cid) :
    (mkStored cid r ps).filter (fun p => p.category_id == c2) = [] := by
  apply List.filter_eq_nil_iff.mpr
  intro q hq
  have hcid := mkStored_cid cid r ps q hq
  simp [hcid]
  exact fun hc => h hc.symm

theorem productsFor_insert_self (db : DB) (cid : Nat) (ps : List ProductInfo) :
    productsFor (insert_products db cid ps) cid = mkStored cid 1 ps := by
  unfold productsFor insert_products
  rw [List.filter_append, filter_cid_self_nil, filter_mkStored_self]
  rfl

theorem productsFor_insert_other (db : DB) (cid c2 : Nat) (ps : List ProductInfo)
    (h : c2 ≠ cid) :
    productsFor (insert_products db cid ps) c2 = productsFor db c2 := by
  unfold productsFor insert_products
  rw [List.filter_append, filter_cid_of_ne _ _ _ h, filter_mkStored_other _ _ _ _ h]
  simp

theorem find?_update_cats (l : List Category) (cid : Nat) (now : Int) :
    (l.map fun c => if c.id == cid then { c with last_scraped := some now } else c).find?
        (fun c => c.id == cid) =
      (l.find? fun c => c.id == cid).map fun c => { c with last_scraped := some now } := by
  induction l with
  | nil => rfl
  | cons c rest ih =>
    by_cases hc : c.id = cid
    · simp [List.find?_cons, hc]
    · have hb : (c.id == cid) = false := by simp [hc]
      simpa only [List.map_cons, List.find?_cons, hb, Bool.false_eq_true, if_false] using ih

theorem get_category_by_id_update (db : DB) (cid : Nat) (now : Int) :
    get_category_by_id (update_category_scraped db cid now) cid =
      (get_category_by_id db cid).map fun c => { c with last_scraped := some now } := by
  unfold get_category_by_id update_category_scraped
  exact find?_update_cats db.categories cid now

instance : IsTotal Category catLE :=
  ⟨by
    intro a b
    unfold catLE
    cases a.last_scraped <;> cases b.last_scraped <;> (simp [tsLE]; try omega)⟩

instance : IsTrans Category catLE :=
  ⟨by
    intro a b c hab hbc
    unfold catLE at *
    rcases a with ⟨_, _, _, sa⟩
    rcases b with ⟨_, _, _, sb⟩
    rcases c with ⟨_, _, _, sc⟩
    cases sa <;> cases sb <;> cases sc <;> (simp_all [tsLE]; try omega)⟩

theorem dpHere_shape (cs : List Char) (a : String) (h : dpHere cs = some a) :
    a.length = 10 ∧ a.data.all asinChar = true := by
  simp only [dpHere] at h
  split at h
  · split at h
    · rename_i hg
      cases h
      refine ⟨?_, ?_⟩
      · have := (Bool.and_eq_true _ _).mp hg
        have hlen : (List.take 10 (List.drop 4 cs)).length = 10 := by simpa using this.1
        simpa [String.length] using hlen
      · exact ((Bool.and_eq_true _ _).mp hg).2
    · cases h
  · cases h

theorem mkStored_congr (cid r : Nat) (ps ps2 : List ProductInfo)
    (h : ps.map (fun p => (p.title, p.url, p.summary)) =
      ps2.map fun p => (p.title, p.url, p.summary)) :
    mkStored cid r ps = mkStored cid r ps2 := by
  induction ps generalizing r ps2 with
  | nil =>
    cases ps2 with
    | nil => rfl
    | cons q qs => simp at h
  | cons p rest ih =>
    cases ps2 with
    | nil => simp at h
    | cons q qs =>
      simp only [List.map_cons, List.cons.injEq, Prod.mk.injEq] at h
      unfold mkStored
      rw [h.1.1, h.1.2.1, h.1.2.2, ih (r + 1) qs h.2]

/-- An element whose block lacks an anchor (`find('a', href=True)` returns
nothing). -/
def elemNoAnchor : Element :=
  { anchorHref := none, titleSel := [], descSel := [], raises := false }

/-- An element yielding an accepted record with a real title. -/
def elemGood : Element :=
  { anchorHref := some "/dp/B08N5WRWNW/", titleSel := [some "Great Product"],
    descSel := [], raises := false }

/-- A page on which the first structural selector matches one anchor-less
block followed by one good block. -/
def pageC1 : Page := { selMatches := [[elemNoAnchor, elemGood]], fallbackMatches := [] }

/-- Claim C1: counterexample. On a page whose first block lacks an anchor and
whose second block is accepted, the single returned record carries rank 2,
so the returned ranks are not the contiguous 1..N positions among accepted
records that the claim asserts — a skipped block does consume a rank slot. -/
theorem C1_counterexample :
    ¬ ((scrape_category_products (.ok pageC1) 10).map ProductInfo.rank =
      List.range' 1 (scrape_category_products (.ok pageC1) 10).length) := by
  decide

/-- Claim C1 (amended): every returned record has a non-sentinel title, the
rank values are strictly increasing, and each record's rank is 1 plus the
0-based position of its originating block among all selected blocks — so
blocks skipped for lacking an anchor (or raising) and records dropped for a
sentinel title do consume rank slots, and the returned ranks may have gaps. -/
theorem C1_amended_thm (page : Page) (limit : Nat) :
    (∀ p ∈ scrape_category_products (.ok page) limit, p.title ≠ noTitle) ∧
    (scrape_category_products (.ok page) limit).Pairwise (fun a b => a.rank < b.rank) ∧
    (∀ p ∈ scrape_category_products (.ok page) limit,
      ∃ j, ∃ hj : j < (selectBlocks page limit).length,
        recordOf j ((selectBlocks page limit).get ⟨j, hj⟩) = some p ∧ p.rank = j + 1) := by
  refine ⟨?_, ?_, ?_⟩
  · intro p hp
    rw [scrape_eq] at hp
    exact goodRecords_mem_title 0 _ p (List.take_subset _ _ hp)
  · rw [scrape_eq]
    exact (goodRecords_pairwise 0 _).sublist (List.take_sublist _ _)
  · intro p hp
    rw [scrape_eq] at hp
    obtain ⟨j, hj, hrec⟩ := goodRecords_mem_src 0 _ p (List.take_subset _ _ hp)
    refine ⟨j, hj, by simpa using hrec, recordOf_rank _ _ _ (by simpa using hrec)⟩

/-- Claim C1 (amended): witness at the concrete page `pageC1`. -/
theorem C1_amended_witness :
    ({ title := "Great Product", url := "https://www.amazon.com/dp/B08N5WRWNW?tag=your-tag-20",
       summary := noDescription, rank := 2 } : ProductInfo).title ≠ noTitle :=
  (C1_amended_thm pageC1 10).1 _ (by decide)

/-- Claim C3: counterexample. With one title selector matching the text "ab"
(which fails the non-empty-and-longer-than-3 test) and no other candidate, the
resolved title is "ab", not the sentinel: the source overwrites the running
title with each matched candidate before testing it, so the claim's "sentinel
when no candidate qualifies" is false. -/
theorem C3_counterexample :
    (∀ t ∈ ([some "ab"] : List (Option String)).filterMap id, goodTitle t = false) ∧
    resolveTitle [some "ab"] ≠ noTitle := by
  exact ⟨by decide, by decide⟩

/-- Claim C3 (amended): the resolved title is the first candidate that is
non-empty and longer than 3 characters; when no candidate qualifies it is the
text of the last selector candidate that matched anything, and only when no
selector matched at all is it the sentinel "No title available". -/
theorem C3_amended_thm (sels : List (Option String)) :
    resolveTitle sels =
      match (sels.filterMap id).find? goodTitle with
      | some t => t
      | none => ((sels.filterMap id).getLast?).getD noTitle :=
  titleLoop_eq noTitle sels

/-- The claim's notion of a product-identifier segment at the head: `/dp/`
followed by exactly 10 uppercase-alphanumeric characters followed by `/`. -/
def dpSlashHere (cs : List Char) : Bool :=
  listStarts cs "/dp/".data &&
    ((cs.drop 4).take 10).length == 10 && ((cs.drop 4).take 10).all asinChar &&
    listStarts (cs.drop 14) "/".data

/-- The claim's predicate on a URL: some position carries a
`/dp/<10 uppercase-alphanumeric chars>/` segment. -/
def hasDpSlashSeg (s : String) : Bool :=
  (List.range (s.data.length + 1)).any fun i => dpSlashHere (s.data.drop i)

/-- Claim C4: counterexample. `https://example.com/dp/B08N5WRWNW` contains no
`/dp/<10 chars>/` segment (nothing follows the identifier), yet the code
rewrites it: the regex `/dp/([A-Z0-9]{10})` requires no trailing slash, so the
"returned unchanged when the segment is absent" half of the claim is false. -/
theorem C4_counterexample :
    hasDpSlashSeg "https://example.com/dp/B08N5WRWNW" = false ∧
    convert_to_affiliate_link "https://example.com/dp/B08N5WRWNW" "your-tag-20" ≠
      "https://example.com/dp/B08N5WRWNW" :=
  ⟨by decide, by decide⟩

/-- Claim C4 (amended): the rewrite triggers on `/dp/` followed by 10
uppercase-alphanumeric characters, with no trailing-slash requirement: if no
position of the URL matches that pattern the URL is returned unchanged, and if
some position matches then the leftmost match's captured 10-character
identifier is used to build `https://www.amazon.com/dp/<id>?tag=<tag>`. -/
theorem C4_amended_thm (url tag : String) :
    ((∀ i, dpHere (url.data.drop i) = none) → convert_to_affiliate_link url tag = url) ∧
    (∀ i a, dpHere (url.data.drop i) = some a →
      (∀ j, j < i → dpHere (url.data.drop j) = none) →
      a.length = 10 ∧ a.data.all asinChar = true ∧
      convert_to_affiliate_link url tag = "https://www.amazon.com/dp/" ++ a ++ "?tag=" ++ tag) := by
  constructor
  · intro h
    unfold convert_to_affiliate_link
    rw [findAsin_none_of url.data h]
  · intro i a hm hl
    obtain ⟨h10, hall⟩ := dpHere_shape _ _ hm
    refine ⟨h10, hall, ?_⟩
    unfold convert_to_affiliate_link
    rw [findAsin_some_of url.data i a hm hl]

/-- Claim C4 (amended): witness on a URL with a trailing-slash `/dp/` segment
at position 22. -/
theorem C4_amended_witness :
    convert_to_affiliate_link "https://www.amazon.com/dp/B08N5WRWNW/ref=x" "my-tag" =
      "https://www.amazon.com/dp/B08N5WRWNW?tag=my-tag" :=
  ((C4_amended_thm "https://www.amazon.com/dp/B08N5WRWNW/ref=x" "my-tag").2 22 "B08N5WRWNW"
    (by decide) (by decide)).2.2

/-- Claim C5: summary resolution returns the first selector candidate passing
the source's test (non-empty, longer than 10 characters, no case-insensitive
"stars") after truncation, and the sentinel when none passes; a candidate
containing "stars" in any letter case never passes, so the next candidate is
tried; text of exactly 200 characters is kept verbatim and text longer than
200 characters is cut to its first 200 characters plus "...". -/
theorem C5_thm (sels : List (Option String)) (t : String) :
    resolveSummary sels =
      (((sels.filterMap id).find? summaryOK).map truncateSummary).getD noDescription ∧
    (strContains (strLower t) "stars" = true → summaryOK t = false) ∧
    (t.length = 200 → truncateSummary t = t) ∧
    (200 < t.length → truncateSummary t = t.take 200 ++ "...") := by
  refine ⟨resolveSummary_eq sels, ?_, ?_, ?_⟩
  · intro h
    simp [summaryOK, h]
  · intro h
    simp [truncateSummary, h]
  · intro h
    simp [truncateSummary, h]

/-- Text of exactly 200 characters. -/
def s200 : String := String.mk (List.replicate 200 'a')

/-- Text of 201 characters. -/
def s201 : String := String.mk (List.replicate 201 'b')

set_option maxRecDepth 8000 in
/-- Claim C5: witness — a star-rating text is rejected, a 200-character text
is kept verbatim, and a 201-character text is truncated with the ellipsis. -/
theorem C5_witness :
    summaryOK "Rated 4.5 STARS overall" = false ∧
    truncateSummary s200 = s200 ∧
    truncateSummary s201 = s201.take 200 ++ "..." :=
  ⟨(C5_thm [] "Rated 4.5 STARS overall").2.1 (by decide),
   (C5_thm [] s200).2.2.1 (by decide),
   (C5_thm [] s201).2.2.2 (by decide)⟩

theorem productsFor_update (db : DB) (cid : Nat) (now : Int) (c2 : Nat) :
    productsFor (update_category_scraped db cid now) c2 = productsFor db c2 := rfl

theorem get_category_insert (db : DB) (cid : Nat) (ps : List ProductInfo) (c2 : Nat) :
    get_category_by_id (insert_products db cid ps) c2 = get_category_by_id db c2 := rfl

/-- Claim C2: with the category present, a non-empty extraction fully replaces
the category's stored products with exactly the new records ranked 1..N (the
delete-then-insert pair is a single state transform, modelling its single
transaction), leaves other categories' products alone, stamps the category's
`last_scraped` to the current time, and reports success; an empty extraction
reports failure and leaves the whole store unchanged. -/
theorem C2_thm (db : DB) (cid : Nat) (fetcher : Unit → Except String Page) (now : Int)
    (cat : Category) (hcat : get_category_by_id db cid = some cat) :
    (scrape_category_products (fetcher ()) 10 ≠ [] →
      (scrape_and_store_category db cid fetcher now).1 = true ∧
      (productsFor (scrape_and_store_category db cid fetcher now).2.1 cid).map
          StoredProduct.title =
        (scrape_category_products (fetcher ()) 10).map ProductInfo.title ∧
      (productsFor (scrape_and_store_category db cid fetcher now).2.1 cid).map
          StoredProduct.affiliate_link =
        (scrape_category_products (fetcher ()) 10).map ProductInfo.url ∧
      (productsFor (scrape_and_store_category db cid fetcher now).2.1 cid).map
          StoredProduct.summary =
        (scrape_category_products (fetcher ()) 10).map ProductInfo.summary ∧
      (productsFor (scrape_and_store_category db cid fetcher now).2.1 cid).map
          StoredProduct.rank =
        List.range' 1 (scrape_category_products (fetcher ()) 10).length ∧
      (∀ c2, c2 ≠ cid →
        productsFor (scrape_and_store_category db cid fetcher now).2.1 c2 =
          productsFor db c2) ∧
      get_category_by_id (scrape_and_store_category db cid fetcher now).2.1 cid =
        some { cat with last_scraped := some now }) ∧
    (scrape_category_products (fetcher ()) 10 = [] →
      scrape_and_store_category db cid fetcher now = (false, db, 1)) := by
  have hdef : scrape_and_store_category db cid fetcher now =
      (if (scrape_category_products (fetcher ()) 10).isEmpty then (false, db, 1)
       else (true,
         update_category_scraped
           (insert_products db cid (scrape_category_products (fetcher ()) 10)) cid now, 1)) := by
    unfold scrape_and_store_category
    rw [hcat]
  constructor
  · intro hne
    have hemp : ¬ ((scrape_category_products (fetcher ()) 10).isEmpty = true) := by
      simpa [List.isEmpty_iff] using hne
    rw [hdef, if_neg hemp]
    refine ⟨rfl, ?_, ?_, ?_, ?_, ?_, ?_⟩
    · rw [productsFor_update, productsFor_insert_self, mkStored_map_title]
    · rw [productsFor_update, productsFor_insert_self, mkStored_map_link]
    · rw [productsFor_update, productsFor_insert_self, mkStored_map_summary]
    · rw [productsFor_update, productsFor_insert_self, mkStored_map_rank]
    · intro c2 hne2
      rw [productsFor_update, productsFor_insert_other db cid c2 _ hne2]
    · rw [get_category_by_id_update, get_category_insert, hcat]
      rfl
  · intro he
    rw [hdef, if_pos (by simp [he])]

/-- A block that extracts to one full record. -/
def elemW2 : Element :=
  { anchorHref := some "/item/42", titleSel := [some "Widget Deluxe"],
    descSel := [some "A very nice widget for your home"], raises := false }

/-- A page whose first structural selector matches exactly `elemW2`. -/
def pageW2 : Page := { selMatches := [[elemW2]], fallbackMatches := [] }

/-- A store holding one category (id 1, never scraped) and one old product. -/
def dbW2 : DB :=
  { categories := [{ id := 1, name := "Cat", href := "/c", last_scraped := none }],
    products := [{ category_id := 1, title := "Old", affiliate_link := "old-link",
                   summary := "old summary", rank := 1 }] }

/-- Fetch step that succeeds with `pageW2`. -/
def fetchW2 : Unit → Except String Page := fun _ => .ok pageW2

/-- Claim C2: witness — one successful scrape on the concrete store reports
success and stamps the category. -/
theorem C2_witness :
    (scrape_and_store_category dbW2 1 fetchW2 5).1 = true ∧
    get_category_by_id (scrape_and_store_category dbW2 1 fetchW2 5).2.1 1 =
      some { id := 1, name := "Cat", href := "/c", last_scraped := some 5 } := by
  have h := (C2_thm dbW2 1 fetchW2 5 { id := 1, name := "Cat", href := "/c", last_scraped := none }
    (by decide)).1 (by decide)
  exact ⟨h.1, h.2.2.2.2.2.2⟩

/-- A category that was never scraped. -/
def catNull : Category := { id := 1, name := "never", href := "/n", last_scraped := none }

/-- A category scraped one hour before `now = 100`. -/
def catFresh : Category := { id := 2, name := "fresh", href := "/f", last_scraped := some 99 }

/-- A category scraped 48 hours before `now = 100`. -/
def catStale : Category := { id := 3, name := "stale", href := "/s", last_scraped := some 52 }

/-- Claim C6: the query returns exactly the categories whose `last_scraped` is
NULL or strictly older than `now` minus the staleness window, ordered by
`last_scraped` ascending with NULL before every timestamp; on timestamps
[NULL, now-1h, now-48h] with a 24-hour window it returns [NULL, now-48h]. -/
theorem C6_thm (cats : List Category) (now hours_old : Int) :
    (get_categories_needing_update cats now hours_old).Perm
      (cats.filter (is_due now hours_old)) ∧
    (∀ c, c ∈ get_categories_needing_update cats now hours_old ↔
      c ∈ cats ∧ is_due now hours_old c = true) ∧
    (get_categories_needing_update cats now hours_old).Pairwise catLE ∧
    get_categories_needing_update [catFresh, catStale, catNull] 100 24 =
      [catNull, catStale] := by
  refine ⟨List.perm_insertionSort catLE _, ?_, ?_, by decide⟩
  · intro c
    unfold get_categories_needing_update
    rw [(List.perm_insertionSort catLE _).mem_iff]
    simp [List.mem_filter]
  · exact List.sorted_insertionSort catLE _

/-- Claim C6: witness — membership instance on the concrete categories. -/
theorem C6_witness :
    catStale ∈ get_categories_needing_update [catFresh, catStale, catNull] 100 24 :=
  ((C6_thm [catFresh, catStale, catNull] 100 24).2.1 catStale).mpr ⟨by decide, by decide⟩

/-- Claim C7: with the default 3 retries, persistent failure sleeps before
every attempt, performs exactly 3 attempts with a retry delay between
consecutive ones, and only after the third failed attempt surfaces the error
of the last attempt; a success at any attempt returns the page immediately
with no further attempts and no error. -/
theorem C7_thm (attempts : Nat → AttemptResult) (e0 e1 e2 : String) (p : Page) :
    (attempts 0 = .fail e0 → attempts 1 = .fail e1 → attempts 2 = .fail e2 →
      get_page attempts 3 = (.raised e2,
        [.sleepPolite, .attempt 0, .sleepRetry, .sleepPolite, .attempt 1, .sleepRetry,
         .sleepPolite, .attempt 2])) ∧
    (attempts 0 = .ok p →
      get_page attempts 3 = (.page p, [.sleepPolite, .attempt 0])) ∧
    (attempts 0 = .fail e0 → attempts 1 = .ok p →
      get_page attempts 3 = (.page p,
        [.sleepPolite, .attempt 0, .sleepRetry, .sleepPolite, .attempt 1])) ∧
    (attempts 0 = .fail e0 → attempts 1 = .fail e1 → attempts 2 = .ok p →
      get_page attempts 3 = (.page p,
        [.sleepPolite, .attempt 0, .sleepRetry, .sleepPolite, .attempt 1, .sleepRetry,
         .sleepPolite, .attempt 2])) := by
  refine ⟨?_, ?_, ?_, ?_⟩ <;> intros <;> simp [get_page, getPageAux, *]

/-- Transport that fails every attempt with a timeout. -/
def attemptsFailW : Nat → AttemptResult := fun _ => .fail "timeout"

/-- Claim C7: witness — three failing attempts, error raised only after the
third. -/
theorem C7_witness :
    get_page attemptsFailW 3 = (.raised "timeout",
      [.sleepPolite, .attempt 0, .sleepRetry, .sleepPolite, .attempt 1, .sleepRetry,
       .sleepPolite, .attempt 2]) :=
  (C7_thm attemptsFailW "timeout" "timeout" "timeout" ⟨[], []⟩).1 rfl rfl rfl

/-- A block whose processing raises an exception (caught per block). -/
def elemRaisesW : Element :=
  { anchorHref := some "/x", titleSel := [some "Fine title"], descSel := [], raises := true }

/-- A page on which every structural selector and the fallback match
nothing. -/
def pageEmptyW : Page := { selMatches := [[], []], fallbackMatches := [] }

/-- Claim C8: extraction is total in the model and bounded: the result never
exceeds `limit`; a page where every structural selector and the fallback scan
match nothing yields the empty list; and a block that raises contributes no
record while the remaining blocks are still processed. -/
theorem C8_thm (fetched : Except String Page) (page : Page) (limit i : Nat)
    (e : Element) (rest : List Element) (acc : List ProductInfo) :
    (scrape_category_products fetched limit).length ≤ limit ∧
    ((∀ l ∈ page.selMatches, l = []) → page.fallbackMatches = [] →
      scrape_category_products (.ok page) limit = []) ∧
    (e.raises = true →
      scrapeLoop limit (e :: rest) i acc =
        if limit ≤ acc.length then acc else scrapeLoop limit rest (i + 1) acc) := by
  refine ⟨?_, ?_, ?_⟩
  · cases fetched with
    | error s => simp [scrape_category_products]
    | ok pg =>
      rw [scrape_eq]
      exact List.length_take_le _ _
  · intro hsel hfb
    rw [scrape_eq]
    simp [selectBlocks, firstNonNil_all_nil _ hsel, hfb, goodRecords]
  · intro hr
    rw [scrapeLoop_cons]
    have hnone : recordOf i e = none := by
      unfold recordOf extract_product_info
      simp [hr]
    rw [hnone]

/-- Claim C8: witness — bound, empty page, and absorbed per-block exception at
concrete inputs. -/
theorem C8_witness :
    (scrape_category_products (.ok pageEmptyW) 10).length ≤ 10 ∧
    scrape_category_products (.ok pageEmptyW) 10 = [] ∧
    scrapeLoop 10 [elemRaisesW] 0 [] =
      (if 10 ≤ ([] : List ProductInfo).length then [] else scrapeLoop 10 [] 1 []) := by
  have h := C8_thm (.ok pageEmptyW) pageEmptyW 10 0 elemRaisesW [] []
  exact ⟨h.1, h.2.1 (by decide) rfl, h.2.2 rfl⟩

/-- Claim C9: stored ranks are the enumeration positions 1..N of the passed
list, and each record's own rank field is ignored: two inputs equal except in
their rank fields produce identical stores. -/
theorem C9_thm (db : DB) (cid : Nat) (ps ps2 : List ProductInfo) :
    (productsFor (insert_products db cid ps) cid).map StoredProduct.rank =
      List.range' 1 ps.length ∧
    (ps.map (fun p => (p.title, p.url, p.summary)) =
        ps2.map (fun p => (p.title, p.url, p.summary)) →
      insert_products db cid ps = insert_products db cid ps2) := by
  constructor
  · rw [productsFor_insert_self, mkStored_map_rank]
  · intro h
    unfold insert_products
    rw [mkStored_congr cid 1 ps ps2 h]

/-- Two one-record inputs differing only in the record's rank field. -/
def infoRank7 : ProductInfo := { title := "T", url := "u", summary := "s", rank := 7 }

/-- The same record with rank 3. -/
def infoRank3 : ProductInfo := { title := "T", url := "u", summary := "s", rank := 3 }

/-- Claim C9: witness — the stored rank is 1 regardless of the carried rank
field, and carried ranks 7 and 3 produce the same store. -/
theorem C9_witness :
    (productsFor (insert_products ⟨[], []⟩ 4 [infoRank7]) 4).map StoredProduct.rank =
      List.range' 1 1 ∧
    insert_products ⟨[], []⟩ 4 [infoRank7] = insert_products ⟨[], []⟩ 4 [infoRank3] :=
  ⟨(C9_thm ⟨[], []⟩ 4 [infoRank7] [infoRank3]).1,
   (C9_thm ⟨[], []⟩ 4 [infoRank7] [infoRank3]).2 (by decide)⟩

/-- Claim C10: when the store holds no category with the given id, the call
reports failure, leaves the store untouched, and initiates no network
fetch. -/
theorem C10_thm (db : DB) (cid : Nat) (fetcher : Unit → Except String Page) (now : Int)
    (h : get_category_by_id db cid = none) :
    scrape_and_store_category db cid fetcher now = (false, db, 0) := by
  unfold scrape_and_store_category
  rw [h]

/-- The empty store. -/
def dbEmptyW : DB := { categories := [], products := [] }

/-- Claim C10: witness — unknown category id on the empty store. -/
theorem C10_witness :
    scrape_and_store_category dbEmptyW 7 (fun _ => .error "net down") 0 =
      (false, dbEmptyW, 0) :=
  C10_thm dbEmptyW 7 (fun _ => .error "net down") 0 rfl

end Scraper
